import Mathlib

/-!
Verification of the WhatsApp cooking-assistant inventory core
(`app/services/ai_service.py`).

The Python service is shallowly embedded below.  Python `float` values are
modelled by `PyFloat` (exact rationals plus the two infinities and NaN); the
stateful Mongo document store is modelled by threading the per-user inventory
list explicitly; the opaque LLM item-name normalisation capability is modelled
as a function parameter `norm : String → String` (the spec treats every opaque
capability as a pure function contract).  Fallible Python code that raises
`ValueError` is modelled with `Option`.
-/

set_option maxRecDepth 40000

unseal Rat.mul Rat.add Rat.sub Rat.inv Rat.ofScientific

/-- Python `s.lower()` (the embedded service only feeds it ASCII unit and
keyword text, on which `Char.toLower` agrees with Python). -/
def pyLower (s : String) : String := ⟨s.data.map Char.toLower⟩

/-- Python `float` values: exact rationals for the finite case, plus the two
infinities and NaN.  Decimal literals parsed from user text are exact
rationals, so the finite case is modelled by `ℚ`; IEEE-754 rounding of binary
doubles is not modelled (no claim depends on it). -/
inductive PyFloat where
  | finite (q : ℚ)
  | inf (neg : Bool)
  | nan
deriving DecidableEq

/-- Python float addition (`a + b`), with IEEE special-value rules:
NaN propagates, opposite infinities give NaN. -/
def pfAdd : PyFloat → PyFloat → PyFloat
  | .nan, _ => .nan
  | _, .nan => .nan
  | .inf n, .inf m => if n = m then .inf n else .nan
  | .inf n, .finite _ => .inf n
  | .finite _, .inf m => .inf m
  | .finite a, .finite b => .finite (a + b)

/-- Python float subtraction (`a - b`). -/
def pfSub : PyFloat → PyFloat → PyFloat
  | .nan, _ => .nan
  | _, .nan => .nan
  | .inf n, .inf m => if n = m then .nan else .inf n
  | .inf n, .finite _ => .inf n
  | .finite _, .inf m => .inf (!m)
  | .finite a, .finite b => .finite (a - b)

/-- Python float multiplication by a rational constant (a unit-table factor). -/
def pfMulQ : PyFloat → ℚ → PyFloat
  | .nan, _ => .nan
  | .inf n, q => if 0 < q then .inf n else if q < 0 then .inf (!n) else .nan
  | .finite a, q => .finite (a * q)

/-- Python float division by a rational constant.  The unit-table factors are
all positive, so the `q = 0` case (a Python `ZeroDivisionError`) is never
reached by the embedded code. -/
def pfDivQ : PyFloat → ℚ → PyFloat
  | .nan, _ => .nan
  | .inf n, q => if 0 < q then .inf n else if q < 0 then .inf (!n) else .nan
  | .finite a, q => .finite (a / q)

/-- Python `a > b` on floats: any comparison involving NaN is false. -/
def pfGt : PyFloat → PyFloat → Bool
  | .nan, _ => false
  | _, .nan => false
  | .inf n, .inf m => !n && m
  | .inf n, .finite _ => !n
  | .finite _, .inf m => m
  | .finite a, .finite b => decide (b < a)

/-- Python `a == b` on floats: NaN is not equal to anything, itself included. -/
def pfEqB : PyFloat → PyFloat → Bool
  | .nan, _ => false
  | _, .nan => false
  | .inf n, .inf m => n = m
  | .finite a, .finite b => decide (a = b)
  | _, _ => false

/-- Characters stripped by Python `str.strip()` with no argument. -/
def pyIsSpace (c : Char) : Bool :=
  c = ' ' || c = '\t' || c = '\n' || c = '\r' || c = '\x0b' || c = '\x0c'

/-- Python `s.strip()`: drop leading and trailing whitespace. -/
def pyStrip (s : String) : String :=
  ⟨((s.data.dropWhile pyIsSpace).reverse.dropWhile pyIsSpace).reverse⟩

/-- Python `s.rstrip("s")`: drop every trailing `'s'` character. -/
def rstripS (s : String) : String :=
  ⟨(s.data.reverse.dropWhile (· = 's')).reverse⟩

/-- Python `s.split()` with no argument: split on runs of whitespace,
discarding empty fields. -/
def pySplit (s : String) : List String :=
  let step := fun (acc : List (List Char) × List Char) (c : Char) =>
    if pyIsSpace c then
      if acc.2 = [] then (acc.1, ([] : List Char)) else (acc.1 ++ [acc.2], [])
    else (acc.1, acc.2 ++ [c])
  let r := s.data.foldl step ([], [])
  (if r.2 = [] then r.1 else r.1 ++ [r.2]).map fun l => (⟨l⟩ : String)

/-- Numeric value of a digit string (the caller checks the digits). -/
def digitsNat (cs : List Char) : Nat :=
  cs.foldl (fun a c => 10 * a + (c.toNat - 48)) 0

/-- Mantissa of a Python float literal: `digits`, `digits.digits`,
`digits.` or `.digits`, with at least one digit overall. -/
def parseMantissa? (cs : List Char) : Option ℚ :=
  match cs.splitOn '.' with
  | [i] =>
      if i ≠ [] ∧ i.all Char.isDigit then some ((digitsNat i : ℚ)) else none
  | [i, f] =>
      if (i ≠ [] ∨ f ≠ []) ∧ i.all Char.isDigit ∧ f.all Char.isDigit then
        some ((digitsNat i : ℚ) + (digitsNat f : ℚ) / (10 : ℚ) ^ f.length)
      else none
  | _ => none

/-- Exponent part of a Python float literal: optional sign then digits. -/
def parseExp? (cs : List Char) : Option ℤ :=
  let (neg, body) :=
    match cs with
    | '+' :: r => (false, r)
    | '-' :: r => (true, r)
    | r => (false, r)
  if body ≠ [] ∧ body.all Char.isDigit then
    some (if neg then -(digitsNat body : ℤ) else (digitsNat body : ℤ))
  else none

/-- Unsigned numeric Python float literal: mantissa with optional
`e`-exponent (the input is already lower-cased). -/
def parsePyNumber? (cs : List Char) : Option ℚ :=
  match cs.splitOn 'e' with
  | [m] => parseMantissa? m
  | [m, ex] =>
      match parseMantissa? m, parseExp? ex with
      | some mv, some ev => some (mv * (10 : ℚ) ^ ev)
      | _, _ => none
  | _ => none

/-- Python `float(s)`: strips whitespace, takes an optional sign, then either
a numeric literal or the case-insensitive words `inf`/`infinity`/`nan`.
(Underscore digit separators are not modelled; no embedded input uses them.) -/
def pyFloatOfString? (s : String) : Option PyFloat :=
  let cs := (pyStrip s).data.map Char.toLower
  let (neg, body) :=
    match cs with
    | '+' :: r => (false, r)
    | '-' :: r => (true, r)
    | r => (false, r)
  if body = "inf".data ∨ body = "infinity".data then some (.inf neg)
  else if body = "nan".data then some .nan
  else
    match parsePyNumber? body with
    | some q => some (.finite (if neg then -q else q))
    | none => none

/-- The static unit-conversion table of `AIService._get_unit_conversions`,
in the source's insertion order: alias → factor to the base unit. -/
def unit_conversions : List (String × ℚ) :=
  [("g", 1), ("gram", 1), ("grams", 1),
   ("kg", 1000), ("kilo", 1000), ("kilos", 1000),
   ("kilogram", 1000), ("kilograms", 1000),
   ("ml", 1), ("milliliter", 1), ("milliliters", 1),
   ("l", 1000), ("liter", 1000), ("liters", 1000),
   ("piece", 1), ("pieces", 1), ("pcs", 1), ("pc", 1),
   ("whole", 1), ("wholes", 1)]

/-- The alias keys of the unit table, in insertion order. -/
def unitKeys : List String := unit_conversions.map (·.1)

/-- Unit normalisation used by `_validate_unit` and `_convert_unit`:
`unit.lower().rstrip('s')`. -/
def norm_unit (unit : String) : String := rstripS (pyLower unit)

/-- Python substring test `a in b` on strings. -/
def pyIn (a b : String) : Bool :=
  b.data.tails.any (fun t => a.data.isPrefixOf t)

/-- The similar-unit suggestion loop of `_validate_unit`, over the already
normalised unit: keep aliases `v` with `unit in v or v in unit`. -/
def similar_units (u : String) : List String :=
  unitKeys.filter (fun v => pyIn u v || pyIn v u)

/-- Python `", ".join(l)`. -/
def joinComma : List String → String
  | [] => ""
  | [x] => x
  | x :: xs => x ++ ", " ++ joinComma xs

/-- `AIService._validate_unit`: normalise, look up, otherwise build a
suggestion message from `similar_units`. -/
def validate_unit (unit : String) : Bool × String :=
  let u := norm_unit unit
  if (List.lookup u unit_conversions).isSome then (true, u)
  else
    let sim := similar_units u
    if sim ≠ [] then
      (false, "Did you mean: " ++ joinComma sim ++ "?")
    else
      (false, "Unsupported unit. Supported units are: g, kg, ml, l, piece")

/-- The dimension-class chained conditional of `_convert_unit`, applied to a
normalised unit. -/
def unit_type (u : String) : String :=
  if u ∈ ["g", "gram", "kg", "kilo", "kilogram"] then "weight"
  else if u ∈ ["ml", "milliliter", "l", "liter"] then "volume"
  else "count"

/-- `AIService._convert_unit`: normalise both units, fail on an unknown unit
or on differing dimension classes, otherwise go through the base unit. -/
def convert_unit (value : PyFloat) (from_unit to_unit : String) : Option PyFloat :=
  let f := norm_unit from_unit
  let t := norm_unit to_unit
  match List.lookup f unit_conversions, List.lookup t unit_conversions with
  | some ff, some tf =>
      if unit_type f ≠ unit_type t then none
      else some (pfDivQ (pfMulQ value ff) tf)
  | _, _ => none

/-- Round-half-to-even of a rational, as Python `round` ties are resolved. -/
def roundHalfEven (x : ℚ) : ℤ :=
  let f := ⌊x⌋
  let r := x - (f : ℚ)
  if r < 1 / 2 then f
  else if 1 / 2 < r then f + 1
  else if f % 2 = 0 then f else f + 1

/-- Rendering of `round(value, 2)` for a non-integral value, as Python
`str` prints it (exact decimal rounding on rationals). -/
def renderRounded (q : ℚ) : String :=
  let c := roundHalfEven (q * 100)
  let sign := if c < 0 then "-" else ""
  let n := c.natAbs
  let whole := n / 100
  let cents := n % 100
  let frac :=
    if cents = 0 then "0"
    else if cents % 10 = 0 then toString (cents / 10)
    else if cents < 10 then "0" ++ toString cents
    else toString cents
  sign ++ toString whole ++ "." ++ frac

/-- `AIService._format_unit`: integral values print without fractional part,
other values are rounded to two decimals; the unit token is appended as
given (no pluralisation). -/
def format_unit (v : PyFloat) (unit : String) : String :=
  (match v with
   | .finite q => if q.den = 1 then toString q.num else renderRounded q
   | .inf n => if n then "-inf" else "inf"
   | .nan => "nan") ++ " " ++ unit

/-- Strategy (b) of `_parse_amount_unit`: the regular expression
`^(\d+(?:\.\d+)?)([a-zA-Z]+)$` — a numeral directly followed by an
alphabetic unit token, consuming the whole string. -/
def regexNumAlpha? (s : String) : Option (PyFloat × String) :=
  let cs := s.data
  let d1 := cs.takeWhile Char.isDigit
  let r1 := cs.dropWhile Char.isDigit
  if d1 = [] then none
  else
    match r1 with
    | '.' :: r2 =>
        let d2 := r2.takeWhile Char.isDigit
        let r3 := r2.dropWhile Char.isDigit
        if d2 = [] then none
        else if r3 ≠ [] ∧ r3.all Char.isAlpha then
          some (.finite ((digitsNat d1 : ℚ) + (digitsNat d2 : ℚ) / (10 : ℚ) ^ d2.length),
                (⟨r3⟩ : String))
        else none
    | _ =>
        if r1 ≠ [] ∧ r1.all Char.isAlpha then
          some (.finite (digitsNat d1), (⟨r1⟩ : String))
        else none

/-- Strategy (c) of `_parse_amount_unit`: `amount_str.split()` must yield
exactly two fields and the first must parse as a Python float. -/
def splitStrategy? (s : String) : Option (PyFloat × String) :=
  match pySplit s with
  | [a, b] =>
      match pyFloatOfString? a with
      | some v => some (v, b)
      | none => none
  | _ => none

/-- `AIService._parse_amount_unit`: strip, then try `float(...)` with default
unit `"piece"`, then the concatenated-number regex, then the two-field split;
raise (`none`) when all three fail. -/
def parse_amount_unit (amount_str : String) : Option (PyFloat × String) :=
  let s := pyStrip amount_str
  match pyFloatOfString? s with
  | some v => some (v, "piece")
  | none =>
      match regexNumAlpha? s with
      | some vu => some vu
      | none => splitStrategy? s

/-- One stored inventory entry (`InventoryItem` of `app/models/user.py`):
a display name and an amount kept as free text. -/
structure InvItem where
  name : String
  amount : String
deriving DecidableEq

/-- A Python `dict` from normalised item names to inventory entries,
modelled as an association list in insertion order (Python 3 dicts preserve
insertion order; assigning an existing key keeps its position). -/
abbrev InvDict := List (String × InvItem)

/-- Python `d[k]` / `k in d`. -/
def dictGet? : InvDict → String → Option InvItem
  | [], _ => none
  | p :: ps, k => if p.1 = k then some p.2 else dictGet? ps k

/-- Python `d[k] = v`: overwrite in place, or append a new key at the end. -/
def dictSet (d : InvDict) (k : String) (v : InvItem) : InvDict :=
  if (dictGet? d k).isSome then
    d.map (fun p => if p.1 = k then (k, v) else p)
  else d ++ [(k, v)]

/-- Python `del d[k]`. -/
def dictDel (d : InvDict) (k : String) : InvDict := d.filter (fun p => p.1 ≠ k)

/-- Python `list(d.values())`. -/
def dictValues (d : InvDict) : List InvItem := d.map (·.2)

/-- The `current_items` dict both inventory actions build from the stored
list: one normalisation call per current item, later duplicates
overwriting earlier ones. -/
def buildDict (norm : String → String) (inv : List InvItem) : InvDict :=
  inv.foldl (fun d it => dictSet d (norm it.name) it) []

/-- One record of the `removed_items` outcome list of the
`remove_inventory` branch. -/
structure RemovedRec where
  name : String
  amount : Option String
  error : Option String
deriving DecidableEq

/-- The body of the `remove_inventory` per-item loop
(`ai_service.py` lines 613-678): one delta item against the current dict,
returning the updated dict and the item's outcome record. -/
def removeOneItem (norm : String → String) (cur : InvDict) (it : InvItem) :
    InvDict × RemovedRec :=
  let key := norm it.name
  match dictGet? cur key with
  | none => (cur, ⟨it.name, none, some "Item not found in inventory"⟩)
  | some ci =>
      if pyLower it.amount = "all" then
        (dictDel cur key, ⟨ci.name, some ci.amount, none⟩)
      else
        match parse_amount_unit ci.amount, parse_amount_unit it.amount with
        | some (cv, cu), some (rv, ru) =>
            let conv : Option PyFloat :=
              if cu ≠ ru then convert_unit rv ru cu else some rv
            match conv with
            | none =>
                (cur, ⟨ci.name, some ci.amount,
                       some ("Cannot convert between " ++ ru ++ " and " ++ cu)⟩)
            | some rv' =>
                if pfGt cv rv' then
                  (dictSet cur key ⟨ci.name, format_unit (pfSub cv rv') cu⟩,
                   ⟨ci.name, some (format_unit rv' cu), none⟩)
                else if pfEqB cv rv' then
                  (dictDel cur key, ⟨ci.name, some ci.amount, none⟩)
                else
                  (cur, ⟨ci.name, some ci.amount,
                         some "Requested amount exceeds available amount"⟩)
        | _, _ =>
            (dictDel cur key, ⟨ci.name, some ci.amount,
                               some "Invalid amount format"⟩)

/-- The whole `remove_inventory` delta loop: a left fold of
`removeOneItem`, collecting outcome records in input order. -/
def removeFold (norm : String → String) (cur : InvDict) (items : List InvItem) :
    InvDict × List RemovedRec :=
  items.foldl (fun acc it =>
    let r := removeOneItem norm acc.1 it
    (r.1, acc.2 ++ [r.2])) (cur, [])

/-- One line of the removed-items summary. -/
def removed_line (r : RemovedRec) : String :=
  match r.error with
  | some e => "• " ++ r.name ++ " - " ++ e ++ "\n"
  | none => "• " ++ r.name ++ " (" ++ r.amount.getD "" ++ ")\n"

/-- Python `str(n)` for the counts interpolated into responses. -/
def natStr (n : Nat) : String := toString n

/-- Concatenation of a list of strings (Python `+=` in a loop). -/
def strJoin : List String → String
  | [] => ""
  | x :: xs => x ++ strJoin xs

/-- The response text of the `remove_inventory` branch. -/
def remove_response (recs : List RemovedRec) (remaining : Nat) : String :=
  if recs ≠ [] then
    "🗑️ Updated your kitchen inventory!\n\nRemoved items:\n"
      ++ strJoin (recs.map removed_line)
      ++ "\nRemaining items: " ++ natStr remaining
  else "No items were removed from your inventory."

/-- A validated intent as consumed by `process_classified_message`; the
items default to `[]` (`classification.get("items", [])`) and `remove_all`
is carried along as the classifier emits it. -/
structure Classification where
  action : String
  items : List InvItem
  remove_all : Bool
deriving DecidableEq

/-- The full `remove_inventory` branch of `process_classified_message`:
build the normalised dict, run the delta loop, write the resulting list
back to the store unconditionally, format the summary.  Returns the stored
inventory after the turn, the outcome records, and the response text.
Note that the branch reads only `classification.items`. -/
def process_remove (norm : String → String) (inv : List InvItem)
    (cls : Classification) : List InvItem × List RemovedRec × String :=
  let r := removeFold norm (buildDict norm inv) cls.items
  let updated := dictValues r.1
  (updated, r.2, remove_response r.2 updated.length)

/-- One record of the `updated_items` outcome list of the
`update_inventory` branch. -/
structure UpdatedRec where
  name : String
  amount : String
  added : Option String
  error : Option String
deriving DecidableEq

/-- The body of the `update_inventory` per-item loop
(`ai_service.py` lines 856-928): parse and validate the delta, validate the
stored legacy unit, convert, then sum or insert; the returned flag records
whether this item failed. -/
def updateOneItem (norm : String → String) (cur : InvDict) (it : InvItem) :
    InvDict × UpdatedRec × Bool :=
  let key := norm it.name
  match parse_amount_unit it.amount with
  | none => (cur, ⟨it.name, it.amount, none, some "Invalid amount format"⟩, true)
  | some (nv, nu) =>
      let v := validate_unit nu
      if !v.1 then
        (cur, ⟨it.name, it.amount, none, some v.2⟩, true)
      else
        match dictGet? cur key with
        | some ci =>
            match parse_amount_unit ci.amount with
            | none =>
                (cur, ⟨it.name, it.amount, none, some "Invalid amount format"⟩, true)
            | some (cv, cu) =>
                let w := validate_unit cu
                if !w.1 then
                  (cur, ⟨it.name, ci.amount, none,
                         some ("Current amount has " ++ w.2)⟩, true)
                else
                  let conv : Option PyFloat :=
                    if cu ≠ nu then convert_unit nv nu cu else some nv
                  match conv with
                  | none =>
                      (cur, ⟨it.name, it.amount, none,
                             some ("Cannot convert between " ++ nu ++ " and " ++ cu)⟩,
                       true)
                  | some nv' =>
                      let total := pfAdd cv nv'
                      (dictSet cur key ⟨ci.name, format_unit total cu⟩,
                       ⟨it.name, format_unit total cu,
                        some (format_unit nv' cu), none⟩, false)
        | none =>
            (dictSet cur key ⟨it.name, format_unit nv nu⟩,
             ⟨it.name, format_unit nv nu, some (format_unit nv nu), none⟩, false)

/-- The `update_inventory` loop state: current dict, outcome records,
`has_errors` flag. -/
structure UpdState where
  cur : InvDict
  recs : List UpdatedRec
  hasErr : Bool
deriving DecidableEq

/-- The whole `update_inventory` delta loop as a left fold. -/
def updateFold (norm : String → String) (s : UpdState) (items : List InvItem) :
    UpdState :=
  items.foldl (fun s it =>
    let r := updateOneItem norm s.cur it
    ⟨r.1, s.recs ++ [r.2.1], s.hasErr || r.2.2⟩) s

/-- The `update_inventory` branch of `process_classified_message`: run the
loop and commit the new list to the store only when no item failed
(lines 930-945).  Returns the stored inventory after the turn, the outcome
records and the `has_errors` flag. -/
def update_inventory (norm : String → String) (inv : List InvItem)
    (items : List InvItem) : List InvItem × List UpdatedRec × Bool :=
  let s := updateFold norm ⟨buildDict norm inv, [], false⟩ items
  (if s.hasErr then inv else dictValues s.cur, s.recs, s.hasErr)

/-- One entry of the classifier's `items` list, before validation: it may
fail to be a JSON object, or lack the `name` or `amount` field. -/
structure RawItem where
  isDict : Bool
  name : Option String
  amount : Option String
deriving DecidableEq

/-- The JSON shape returned by the opaque classification capability, as far
as `classify_message`'s validation inspects it: an optional `action` field,
an `items` field that may be absent (`none`), present but not a list
(`some none`), or a list (`some (some l)`), and an optional `remove_all`. -/
structure RawClassification where
  action : Option String
  items : Option (Option (List RawItem))
  remove_all : Option Bool
deriving DecidableEq

/-- The closed five-action enumeration of `classify_message`. -/
def valid_actions : List String :=
  ["get_recipes", "general_conversation", "update_inventory",
   "get_inventory", "remove_inventory"]

/-- The validation layer of `classify_message` (lines 390-407): require the
`action` field, an action inside the enumeration, and, for the two
inventory actions, a well-formed items list whose entries are objects with
`name` and `amount`. -/
def validClassification : RawClassification → Bool
  | ⟨none, _, _⟩ => false
  | ⟨some a, items, _⟩ =>
      if a ∈ valid_actions then
        if a = "update_inventory" ∨ a = "remove_inventory" then
          match items with
          | some (some l) =>
              l.all (fun it => it.isDict && it.name.isSome && it.amount.isSome)
          | _ => false
        else true
      else false

/-- The fallback result `{"action": "general_conversation"}` returned by
`classify_message` on any classification failure. -/
def fallbackClassification : RawClassification := ⟨some "general_conversation", none, none⟩

/-- `AIService.classify_message`: the opaque capability outcome is `none`
for a provider error or a non-JSON reply and `some c` for a parsed JSON
object;
any validation failure degrades to the fallback instead of raising. -/
def classify_message (raw : Option RawClassification) : RawClassification :=
  match raw with
  | none => fallbackClassification
  | some c => if validClassification c then c else fallbackClassification

/-- The output-length trim applied to general-conversation replies
(`ai_service.py` lines 88-89 and 1040-1042): over 1500 characters, keep
1497 and append the fixed `"..."` marker. -/
def truncate1500 (s : String) : String :=
  if s.length > 1500 then (⟨s.data.take 1497⟩ : String) ++ "..." else s

/-- A recipe as consumed by the `get_recipes` formatting loop. -/
structure Recipe where
  name : String
  description : String
  available : List String
  needed : List String
  difficulty : String
  cooking_time : String
  steps : List String

/-- Python `sep.join(l)`. -/
def joinSep (sep : String) : List String → String
  | [] => ""
  | [x] => x
  | x :: xs => x ++ sep ++ joinSep sep xs

/-- The numbered-step lines `f"{i+1}. {step}"`. -/
def numberSteps (steps : List String) : List String :=
  (steps.enum).map (fun p => natStr (p.1 + 1) ++ ". " ++ p.2)

/-- The `recipe_text` block assembled for one recipe (lines 1000-1010). -/
def recipeText (r : Recipe) : String :=
  "📌 " ++ r.name ++ "\n"
    ++ "📝 " ++ r.description ++ "\n\n"
    ++ "🛒 Ingredients:\n"
    ++ "  Available:" ++ joinSep "\n    • " ("" :: r.available) ++ "\n"
    ++ "  Needed:" ++ joinSep "\n    • " ("" :: r.needed) ++ "\n\n"
    ++ "⏱️  Time: " ++ r.cooking_time ++ "\n"
    ++ "⭐ Difficulty: " ++ r.difficulty ++ "\n\n"
    ++ "📋 Steps:\n    " ++ joinSep "\n    " (numberSteps r.steps) ++ "\n\n"
    ++ (⟨List.replicate 30 '─'⟩ : String) ++ "\n\n"

/-- The header the recipe response starts from. -/
def recipeHeader : String := "🍳 Recipe suggestions:\n\n"

/-- The appending loop of the `get_recipes` branch (lines 992-1016): append
each recipe text while the running total stays within the 1400 budget,
stopping (`break`) at the first one that would exceed it. -/
def recipesShownAux (total : Nat) : List String → List String
  | [] => []
  | t :: ts =>
      if total + t.length > 1400 then []
      else t :: recipesShownAux (total + t.length) ts

/-- The full `get_recipes` response: header, the shown recipe texts, and a
count note when recipes were dropped. -/
def format_recipes (recipes : List Recipe) : String :=
  let texts := recipes.map recipeText
  let shown := recipesShownAux recipeHeader.length texts
  let resp := recipeHeader ++ strJoin shown
  if shown.length < recipes.length then
    let remaining := recipes.length - shown.length
    resp ++ "\n...and " ++ natStr remaining ++ " more recipe"
      ++ (if remaining > 1 then "s" else "") ++ " available. Ask for more!"
  else resp

/-- Python `dict`-of-lists insertion used to group inventory entries by
normalised name. -/
def groupsAdd (g : List (String × List InvItem)) (k : String) (it : InvItem) :
    List (String × List InvItem) :=
  if (List.lookup k g).isSome then
    g.map (fun p => if p.1 = k then (p.1, p.2 ++ [it]) else p)
  else g ++ [(k, [it])]

/-- The `normalized_groups` dict of the `get_inventory` branch. -/
def buildGroups (norm : String → String) (inv : List InvItem) :
    List (String × List InvItem) :=
  inv.foldl (fun g it => groupsAdd g (norm it.name) it) []

/-- Stable insertion into a key-sorted list (used to model Python
`sorted(..., key=lambda x: x[0])`). -/
def insertSorted (p : String × List InvItem) :
    List (String × List InvItem) → List (String × List InvItem)
  | [] => [p]
  | q :: qs => if q.1 ≤ p.1 then q :: insertSorted p qs else p :: q :: qs

/-- Python `sorted(groups.items(), key=lambda x: x[0])`. -/
def sortGroups (l : List (String × List InvItem)) :
    List (String × List InvItem) :=
  l.foldl (fun acc p => insertSorted p acc) []

/-- Python `s.title()` on the ASCII names the service handles: uppercase a
letter that follows a non-letter, lowercase the rest. -/
def pyTitle (s : String) : String :=
  ⟨(s.data.foldl (fun (acc : List Char × Bool) c =>
      (acc.1 ++ [if acc.2 then c.toLower else c.toUpper], c.isAlpha))
      ([], false)).1⟩

/-- One listing line (or block) of the inventory response
(lines 815-822): single entries print inline, merged groups print a titled
header with one sub-line per stored variant. -/
def group_line (p : String × List InvItem) : String :=
  match p.2 with
  | [it] => "• " ++ it.name ++ " (" ++ it.amount ++ ")\n"
  | its =>
      "• " ++ pyTitle p.1 ++ ":\n"
        ++ strJoin (its.map (fun it => "  - " ++ it.name ++ " (" ++ it.amount ++ ")\n"))

/-- The `get_inventory` branch of `process_classified_message` for the
analysis outcome `{"type": "all"}` (the secondary opaque classification is
fixed to its unfiltered case): group by normalised name, sort
alphabetically, list every group, append the counts and the last-updated
stamp.  No length truncation is applied on this path. -/
def get_inventory_response (norm : String → String) (inv : List InvItem)
    (lastUpdated : String) : String :=
  if inv = [] then
    "Your kitchen inventory is empty. Add some ingredients to get started!"
  else
    let groups := buildGroups norm inv
    if groups = [] then
      "Your kitchen inventory is empty. Add some ingredients to get started!"
    else
      "📋 Your Kitchen Inventory:\n\n"
        ++ strJoin ((sortGroups groups).map group_line)
        ++ "\nTotal items shown: " ++ natStr groups.length
        ++ "\n\nLast updated: " ++ lastUpdated

/-- The spec's own worked example: inventory `tomato: "2 kg"`, add delta
`"500g"` — the outcome is `"2.5 kg"` with the converted `"0.5 kg"` recorded
as added, and the batch commits. -/
theorem spec_example_add_with_conversion :
    update_inventory pyLower [⟨"tomato", "2 kg"⟩] [⟨"tomato", "500g"⟩] =
      ([⟨"tomato", "2.5 kg"⟩],
       [⟨"tomato", "2.5 kg", some "0.5 kg", none⟩], false) := by decide

/-- Looking a key up after `dictSet` on that key yields the new value. -/
theorem lookup_dictSet_self (d : InvDict) (k : String) (v : InvItem) :
    dictGet? (dictSet d k v) k = some v := by
  unfold dictSet
  split
  · rename_i h
    induction d with
    | nil => simp [dictGet?] at h
    | cons p ps ih =>
        by_cases hp : p.1 = k
        · simp [dictGet?, hp]
        · simp only [List.map_cons, if_neg hp, dictGet?]
          apply ih
          simpa [dictGet?, if_neg hp] using h
  · rename_i h
    induction d with
    | nil => simp [dictGet?]
    | cons p ps ih =>
        by_cases hp : p.1 = k
        · exact absurd (by simp [dictGet?, hp]) h
        · simp only [List.cons_append, dictGet?, if_neg hp]
          apply ih
          intro hs
          exact h (by simpa [dictGet?, if_neg hp] using hs)

/-- Looking a key up after `dictDel` on that key fails. -/
theorem lookup_dictDel_self (d : InvDict) (k : String) :
    dictGet? (dictDel d k) k = none := by
  unfold dictDel
  induction d with
  | nil => simp [dictGet?]
  | cons p ps ih =>
      by_cases hp : p.1 = k
      · simpa [List.filter_cons, hp] using ih
      · simpa [List.filter_cons, hp, dictGet?, if_neg hp] using ih

/-- C1 (status: code_bug).  The spec requires `Remove` with
`removeAll = true` to clear the whole inventory and report one summary
record, and the code's own classifier prompt instructs the model to emit
`remove_all: true` for requests such as "Clear my inventory"; but
`process_classified_message` never reads `remove_all`.  Evaluating the
embedded remove branch at the failing input — a `remove_all` classification
with an empty item list against a non-empty inventory — shows the stored
inventory is returned unchanged (nonempty, not cleared), the outcome list
is empty (no summary record), and the user is told nothing was removed. -/
theorem c1_remove_all_is_ignored :
    process_remove pyLower [⟨"tomato", "2 kg"⟩] ⟨"remove_inventory", [], true⟩ =
      ([⟨"tomato", "2 kg"⟩], [], "No items were removed from your inventory.")
    ∧ ([⟨"tomato", "2 kg"⟩] : List InvItem) ≠ [] := by
  decide

/-- C10 (status: confirmed).  `parse_amount_unit` accepts every
float-parseable numeral as its pure-numeral strategy — including `"-5"`,
`"inf"` and `"nan"`, all returned with unit `"piece"` — and an Add batch
applies such deltas arithmetically: adding `"-5"` to a stored `"2 piece"`
commits `"-3 piece"` (a negative stored amount, as witnessed by parsing it
back), and adding `"inf"` commits `"inf piece"`; Remove mode's never-negative
guarantee has no counterpart in Add mode. -/
theorem c10_add_mode_unbounded_below :
    parse_amount_unit "-5" = some (.finite (-5), "piece")
    ∧ parse_amount_unit "inf" = some (.inf false, "piece")
    ∧ parse_amount_unit "nan" = some (.nan, "piece")
    ∧ update_inventory pyLower [⟨"apple", "2 piece"⟩] [⟨"apple", "-5"⟩] =
        ([⟨"apple", "-3 piece"⟩],
         [⟨"apple", "-3 piece", some "-5 piece", none⟩], false)
    ∧ parse_amount_unit "-3 piece" = some (.finite (-3), "piece")
    ∧ ((-3 : ℚ) < 0)
    ∧ (update_inventory pyLower [⟨"apple", "2 piece"⟩] [⟨"apple", "inf"⟩]).1 =
        [⟨"apple", "inf piece"⟩] := by
  decide

/-- C9 (status: confirmed).  In `Remove` mode, when the delta item's key is
present but the stored or the requested amount fails to parse, the whole
entry for that normalised key is deleted from the resulting dict (it is not
left unchanged) while the outcome record carries the stored name and amount
together with the invalid-amount error. -/
theorem c9_parse_failure_deletes_entry (norm : String → String)
    (cur : InvDict) (it ci : InvItem)
    (hget : dictGet? cur (norm it.name) = some ci)
    (hall : pyLower it.amount ≠ "all")
    (hfail : parse_amount_unit ci.amount = none ∨ parse_amount_unit it.amount = none) :
    (removeOneItem norm cur it).1 = dictDel cur (norm it.name)
    ∧ dictGet? (removeOneItem norm cur it).1 (norm it.name) = none
    ∧ (removeOneItem norm cur it).2 =
        ⟨ci.name, some ci.amount, some "Invalid amount format"⟩ := by
  unfold removeOneItem
  simp only [hget, if_neg hall]
  rcases hfail with hf | hf
  · simp only [hf]
    exact ⟨trivial, lookup_dictDel_self cur (norm it.name), trivial⟩
  · simp only [hf]
    cases hp : parse_amount_unit ci.amount with
    | none => exact ⟨rfl, lookup_dictDel_self cur (norm it.name), rfl⟩
    | some p =>
        cases p with
        | mk v u => exact ⟨rfl, lookup_dictDel_self cur (norm it.name), rfl⟩

/-- Witness for C9: removing `"1 kg"` of an item whose stored amount
`"two kg"` does not parse deletes the whole entry and reports the
invalid-amount error. -/
theorem c9_parse_failure_witness :
    (removeOneItem pyLower [("tomato", ⟨"tomato", "two kg"⟩)] ⟨"tomato", "1 kg"⟩).1 = []
    ∧ (removeOneItem pyLower [("tomato", ⟨"tomato", "two kg"⟩)] ⟨"tomato", "1 kg"⟩).2 =
        ⟨"tomato", some "two kg", some "Invalid amount format"⟩ := by
  have h := c9_parse_failure_deletes_entry pyLower
    [("tomato", ⟨"tomato", "two kg"⟩)] ⟨"tomato", "1 kg"⟩ ⟨"tomato", "two kg"⟩
    (by decide) (by decide) (Or.inl (by decide))
  exact ⟨h.1.trans (by decide), h.2.2⟩

/-- C3 (status: confirmed).  For a `Remove` item whose stored and requested
amounts both parse to finite values and whose requested amount converts
into the stored unit: strictly larger stock is decremented to the (positive)
difference, exactly equal stock deletes the entry outright, and a request
exceeding stock leaves the dict untouched while the outcome records the
over-removal error — the stored amount never becomes negative. -/
theorem c3_remove_arithmetic (norm : String → String) (cur : InvDict)
    (it ci : InvItem) (c r0 r : ℚ) (cu ru : String)
    (hget : dictGet? cur (norm it.name) = some ci)
    (hall : pyLower it.amount ≠ "all")
    (hc : parse_amount_unit ci.amount = some (.finite c, cu))
    (hr : parse_amount_unit it.amount = some (.finite r0, ru))
    (hconv : (if cu ≠ ru then convert_unit (.finite r0) ru cu
              else some (.finite r0)) = some (.finite r)) :
    (r < c →
        (removeOneItem norm cur it).1 =
          dictSet cur (norm it.name) ⟨ci.name, format_unit (.finite (c - r)) cu⟩
        ∧ dictGet? (removeOneItem norm cur it).1 (norm it.name) =
            some ⟨ci.name, format_unit (.finite (c - r)) cu⟩
        ∧ 0 < c - r)
    ∧ (r = c → dictGet? (removeOneItem norm cur it).1 (norm it.name) = none)
    ∧ (c < r →
        (removeOneItem norm cur it).1 = cur
        ∧ (removeOneItem norm cur it).2 =
            ⟨ci.name, some ci.amount,
             some "Requested amount exceeds available amount"⟩) := by
  unfold removeOneItem
  simp only [hget, if_neg hall, hc, hr, hconv]
  refine ⟨fun hlt => ?_, fun heq => ?_, fun hgt => ?_⟩
  · have hg : pfGt (.finite c) (.finite r) = true := by
      simp [pfGt, hlt]
    rw [if_pos hg]
    exact ⟨rfl, lookup_dictSet_self cur (norm it.name) _, by linarith⟩
  · subst heq
    have hg : pfGt (.finite r) (.finite r) = false := by simp [pfGt]
    have he : pfEqB (.finite r) (.finite r) = true := by simp [pfEqB]
    rw [if_neg (by simp [hg]), if_pos he]
    exact lookup_dictDel_self cur (norm it.name)
  · have hg : pfGt (.finite c) (.finite r) = false := by
      simp only [pfGt, decide_eq_false_iff_not]
      exact lt_asymm hgt
    have he : pfEqB (.finite c) (.finite r) = false := by
      simp only [pfEqB, decide_eq_false_iff_not]
      exact ne_of_lt hgt
    rw [if_neg (by simp [hg]), if_neg (by simp [he])]
    exact ⟨rfl, rfl⟩

/-- Witness for C3: the spec's own example — removing `"500 g"` from a
stored `"2 kg"` leaves the entry at `"1.5 kg"`. -/
theorem c3_remove_witness :
    dictGet?
        (removeOneItem pyLower [("tomato", ⟨"tomato", "2 kg"⟩)]
          ⟨"tomato", "500 g"⟩).1 "tomato" =
      some ⟨"tomato", "1.5 kg"⟩ := by
  have h := (c3_remove_arithmetic pyLower [("tomato", ⟨"tomato", "2 kg"⟩)]
      ⟨"tomato", "500 g"⟩ ⟨"tomato", "2 kg"⟩ 2 500 (1 / 2) "kg" "g"
      (by decide) (by decide) (by decide) (by decide) (by decide)).1
      (by norm_num)
  exact h.2.1.trans (by decide)

/-- C5 (status: confirmed).  For units found in the conversion table,
`convert_unit` fails exactly when the two dimension classes differ, and on
matching classes a finite value is mapped to
`value * factorToBase(fromUnit) / factorToBase(toUnit)`. -/
theorem c5_convert_class_gate (v : PyFloat) (u w : String) (fu fw : ℚ)
    (hu : List.lookup (norm_unit u) unit_conversions = some fu)
    (hw : List.lookup (norm_unit w) unit_conversions = some fw) :
    (convert_unit v u w = none ↔
        unit_type (norm_unit u) ≠ unit_type (norm_unit w))
    ∧ (∀ q : ℚ, v = .finite q →
        unit_type (norm_unit u) = unit_type (norm_unit w) →
        convert_unit v u w = some (.finite (q * fu / fw))) := by
  unfold convert_unit
  simp only [hu, hw]
  constructor
  · by_cases h : unit_type (norm_unit u) = unit_type (norm_unit w)
    · simp [h]
    · simp [h]
  · intro q hq h
    subst hq
    simp [h, pfMulQ, pfDivQ]

/-- Witness for C5: converting 2 kilograms to grams through the table
factors gives 2000 grams. -/
theorem c5_convert_witness :
    convert_unit (.finite 2) "kg" "g" = some (.finite 2000) := by
  have h := (c5_convert_class_gate (.finite 2) "kg" "g" 1000 1
      (by decide) (by decide)).2 2 rfl (by decide)
  rw [h]
  norm_num

/-- The claim's reading of unit validation, modelled from the spec's words
"strips a single trailing pluralizing suffix": lowercase, drop at most ONE
trailing `'s'`, then the same table lookup and suggestion logic as the
code.  Stated only to compare against `validate_unit`, which strips every
trailing `'s'` (`rstrip('s')`). -/
def stripOneS (s : String) : String :=
  match s.data.getLast? with
  | some 's' => ⟨s.data.dropLast⟩
  | _ => s

/-- The single-strip variant of `_validate_unit` that the claim describes. -/
def validate_unit_claim (unit : String) : Bool × String :=
  let u := stripOneS (pyLower unit)
  if (List.lookup u unit_conversions).isSome then (true, u)
  else
    let sim := similar_units u
    if sim ≠ [] then
      (false, "Did you mean: " ++ joinComma sim ++ "?")
    else
      (false, "Unsupported unit. Supported units are: g, kg, ml, l, piece")

/-- Counterexample for C6: on input `"kgss"` the code strips both trailing
`'s'` characters and accepts the unit as `"kg"`, while the claimed
single-suffix strip leaves `"kgs"`, which is not in the alias table and
must fail — so `validate` does not strip a single trailing suffix. -/
theorem c6_single_strip_counterexample :
    validate_unit "kgss" = (true, "kg")
    ∧ (validate_unit_claim "kgss").1 = false
    ∧ validate_unit "kgss" ≠ validate_unit_claim "kgss" := by
  decide

/-- C6 as amended (status: corrected).  `validate` lowercases the text,
strips ALL trailing `'s'` characters, and looks the result up in the alias
table: it succeeds exactly when the normalised unit is a table key, in
which case it returns that normalised unit; and every alias in the computed
suggestion list shares a substring with the normalised input (one is a
substring of the other). -/
theorem c6_validate_amended (u : String) :
    ((validate_unit u).1 = true ↔
        (List.lookup (norm_unit u) unit_conversions).isSome)
    ∧ ((validate_unit u).1 = true → (validate_unit u).2 = norm_unit u)
    ∧ (∀ a ∈ similar_units (norm_unit u),
        pyIn (norm_unit u) a = true ∨ pyIn a (norm_unit u) = true) := by
  refine ⟨?_, ?_, ?_⟩
  · unfold validate_unit
    by_cases h : (List.lookup (norm_unit u) unit_conversions).isSome
    · simp [h]
    · simp only [h, if_false, Bool.false_eq_true, iff_false]
      split <;> simp
  · unfold validate_unit
    by_cases h : (List.lookup (norm_unit u) unit_conversions).isSome
    · simp [h]
    · simp only [h, if_false]
      by_cases hs : similar_units (norm_unit u) = []
      · simp [hs]
      · simp [hs]
  · intro a ha
    have := List.of_mem_filter (p := fun v => pyIn (norm_unit u) v || pyIn v (norm_unit u)) ha
    rcases Bool.or_eq_true_iff.mp this with h | h
    · exact Or.inl h
    · exact Or.inr h

/-- Witness for C6's amended theorem: `"kilos"` normalises to `"kilo"`,
which the table accepts and returns as the canonical unit. -/
theorem c6_validate_witness : (validate_unit "kilos").2 = "kilo" := by
  have h := (c6_validate_amended "kilos").2.1 (by decide)
  exact h.trans (by decide)

/-- C7 (status: confirmed).  `parse_amount_unit` strips its input and tries
exactly three strategies in order — `float(...)` with default unit
`"piece"`, the concatenated number-then-letters regular expression, and the
two-field whitespace split — returning the first match and failing exactly
when all three fail, with no other fallback. -/
theorem c7_parse_strategy_order (s : String) :
    (∀ v, pyFloatOfString? (pyStrip s) = some v →
        parse_amount_unit s = some (v, "piece"))
    ∧ (pyFloatOfString? (pyStrip s) = none →
        ∀ p, regexNumAlpha? (pyStrip s) = some p → parse_amount_unit s = some p)
    ∧ (pyFloatOfString? (pyStrip s) = none → regexNumAlpha? (pyStrip s) = none →
        parse_amount_unit s = splitStrategy? (pyStrip s))
    ∧ (parse_amount_unit s = none ↔
        pyFloatOfString? (pyStrip s) = none
          ∧ regexNumAlpha? (pyStrip s) = none
          ∧ splitStrategy? (pyStrip s) = none) := by
  unfold parse_amount_unit
  cases hf : pyFloatOfString? (pyStrip s) with
  | some v => simp [hf]
  | none =>
      cases hr : regexNumAlpha? (pyStrip s) with
      | some p => simp [hf, hr]
      | none => simp [hf, hr]

/-- Witness for C7: `"500g"` is rejected by `float(...)` but matched by the
second (concatenated) strategy. -/
theorem c7_parse_witness : parse_amount_unit "500g" = some (.finite 500, "g") := by
  exact (c7_parse_strategy_order "500g").2.1 (by decide) (.finite 500, "g") (by decide)

/-- C4 (status: confirmed).  The classifier adapter is total: whatever the
opaque capability produced (a provider failure, a result missing `action`,
an action outside the closed enumeration, an inventory action with missing
or malformed items), `classify_message` returns a classification whose
action is one of the five valid ones, degrading to the
`general_conversation` fallback in every failure case and passing valid
results through unchanged. -/
theorem c4_classifier_never_fails (raw : Option RawClassification) :
    (∃ a, (classify_message raw).action = some a ∧ a ∈ valid_actions)
    ∧ (raw = none → classify_message raw = fallbackClassification)
    ∧ (∀ items rall, raw = some ⟨none, items, rall⟩ →
        classify_message raw = fallbackClassification)
    ∧ (∀ a items rall, raw = some ⟨some a, items, rall⟩ → a ∉ valid_actions →
        classify_message raw = fallbackClassification)
    ∧ (∀ a rall l it, raw = some ⟨some a, some (some l), rall⟩ →
        (a = "update_inventory" ∨ a = "remove_inventory") → it ∈ l →
        (it.isDict = false ∨ it.name = none ∨ it.amount = none) →
        classify_message raw = fallbackClassification)
    ∧ (∀ c, raw = some c → validClassification c = true → classify_message raw = c) := by
  refine ⟨?_, ?_, ?_, ?_, ?_, ?_⟩
  · cases raw with
    | none => exact ⟨"general_conversation", rfl, by decide⟩
    | some c =>
        obtain ⟨act, items, rall⟩ := c
        simp only [classify_message]
        by_cases hv : validClassification ⟨act, items, rall⟩ = true
        · rw [if_pos hv]
          cases act with
          | none => simp [validClassification] at hv
          | some a =>
              by_cases ha : a ∈ valid_actions
              · exact ⟨a, rfl, ha⟩
              · simp [validClassification, ha] at hv
        · rw [if_neg hv]
          exact ⟨"general_conversation", rfl, by decide⟩
  · intro h; subst h; rfl
  · intro items rall h
    subst h
    simp [classify_message, validClassification]
  · intro a items rall h ha
    subst h
    simp [classify_message, validClassification, ha]
  · intro a rall l it h hact hmem hbad
    subst h
    have hall : l.all (fun x => x.isDict && x.name.isSome && x.amount.isSome) = false := by
      apply Bool.eq_false_iff.mpr
      intro hall2
      have hx := List.all_eq_true.mp hall2 it hmem
      rcases hbad with hb | hb | hb <;> simp [hb] at hx
    rcases hact with hact | hact <;> subst hact <;>
      simp [classify_message, validClassification, valid_actions, hall]
  · intro c h hv
    subst h
    simp [classify_message, hv]

/-- Witness for C4: a parsed result without the `action` field degrades to
the fallback classification. -/
theorem c4_classifier_witness :
    classify_message (some ⟨none, none, none⟩) = fallbackClassification := by
  exact (c4_classifier_never_fails (some ⟨none, none, none⟩)).2.2.1 none none rfl

/-- The per-item error flag of the `update_inventory` loop is set exactly
when the item's outcome record carries an error. -/
theorem updateOneItem_spec (norm : String → String) (cur : InvDict) (it : InvItem) :
    (updateOneItem norm cur it).2.2 = ((updateOneItem norm cur it).2.1.error).isSome := by
  simp only [updateOneItem]
  repeat' split
  all_goals rfl

/-- Running the `update_inventory` loop from an arbitrary accumulator
factors through the run from the empty accumulator: the dict evolution is
the same, the records are appended, the error flag is or-ed. -/
theorem updateFold_decomp (norm : String → String) :
    ∀ (items : List InvItem) (cur : InvDict) (recs : List UpdatedRec) (b : Bool),
      updateFold norm ⟨cur, recs, b⟩ items =
        ⟨(updateFold norm ⟨cur, [], false⟩ items).cur,
         recs ++ (updateFold norm ⟨cur, [], false⟩ items).recs,
         b || (updateFold norm ⟨cur, [], false⟩ items).hasErr⟩ := by
  intro items
  induction items with
  | nil => intro cur recs b; simp [updateFold]
  | cons it ts ih =>
      intro cur recs b
      rw [show updateFold norm ⟨cur, recs, b⟩ (it :: ts) =
            updateFold norm ⟨(updateOneItem norm cur it).1,
              recs ++ [(updateOneItem norm cur it).2.1],
              b || (updateOneItem norm cur it).2.2⟩ ts from rfl,
          show updateFold norm ⟨cur, [], false⟩ (it :: ts) =
            updateFold norm ⟨(updateOneItem norm cur it).1,
              [(updateOneItem norm cur it).2.1],
              (updateOneItem norm cur it).2.2⟩ ts from rfl,
          ih ((updateOneItem norm cur it).1)
            (recs ++ [(updateOneItem norm cur it).2.1])
            (b || (updateOneItem norm cur it).2.2),
          ih ((updateOneItem norm cur it).1)
            [(updateOneItem norm cur it).2.1]
            ((updateOneItem norm cur it).2.2)]
      simp [List.append_assoc, Bool.or_assoc]

/-- The batch error flag is set exactly when some outcome record of the
batch carries an error. -/
theorem updateFold_err_iff (norm : String → String) :
    ∀ (items : List InvItem) (cur : InvDict),
      ((updateFold norm ⟨cur, [], false⟩ items).hasErr = true ↔
        ∃ r ∈ (updateFold norm ⟨cur, [], false⟩ items).recs, r.error.isSome) := by
  intro items
  induction items with
  | nil => intro cur; simp [updateFold]
  | cons it ts ih =>
      intro cur
      rw [show updateFold norm ⟨cur, [], false⟩ (it :: ts) =
            updateFold norm ⟨(updateOneItem norm cur it).1,
              [(updateOneItem norm cur it).2.1],
              (updateOneItem norm cur it).2.2⟩ ts from rfl,
          updateFold_decomp norm ts ((updateOneItem norm cur it).1)
            [(updateOneItem norm cur it).2.1] ((updateOneItem norm cur it).2.2)]
      simp only [Bool.or_eq_true, updateOneItem_spec norm cur it,
        ih ((updateOneItem norm cur it).1), List.cons_append, List.nil_append,
        List.mem_cons]
      constructor
      · rintro (h | ⟨r, hr, he⟩)
        · exact ⟨(updateOneItem norm cur it).2.1, Or.inl rfl, h⟩
        · exact ⟨r, Or.inr hr, he⟩
      · rintro ⟨r, hr | hr, he⟩
        · subst hr; exact Or.inl he
        · exact Or.inr ⟨r, hr, he⟩

/-- Every delta item of an `update_inventory` batch produces exactly one
outcome record. -/
theorem updateFold_length (norm : String → String) :
    ∀ (items : List InvItem) (cur : InvDict),
      (updateFold norm ⟨cur, [], false⟩ items).recs.length = items.length := by
  intro items
  induction items with
  | nil => intro cur; simp [updateFold]
  | cons it ts ih =>
      intro cur
      rw [show updateFold norm ⟨cur, [], false⟩ (it :: ts) =
            updateFold norm ⟨(updateOneItem norm cur it).1,
              [(updateOneItem norm cur it).2.1],
              (updateOneItem norm cur it).2.2⟩ ts from rfl,
          updateFold_decomp norm ts ((updateOneItem norm cur it).1)
            [(updateOneItem norm cur it).2.1] ((updateOneItem norm cur it).2.2)]
      simp [ih ((updateOneItem norm cur it).1)]

/-- C2 (status: confirmed).  Commit policy is asymmetric.  For `Add`: when
any outcome record of the batch carries an error (unknown unit, legacy
stored unit, incompatible units, or invalid amount format all set the
flag), the stored inventory after the turn is exactly the original — the
write is skipped for the whole batch — while the outcome report still has
one record per delta item.  For `Remove`: the write is unconditional, as
shown on a batch whose second item fails (not found) while the first
item's decrement is nevertheless committed to the store. -/
theorem c2_add_remove_commit_asymmetry :
    (∀ (norm : String → String) (inv items : List InvItem),
        (∃ r ∈ (update_inventory norm inv items).2.1, r.error.isSome) →
        (update_inventory norm inv items).1 = inv)
    ∧ (∀ (norm : String → String) (inv items : List InvItem),
        (update_inventory norm inv items).2.1.length = items.length)
    ∧ ((∃ r ∈ (process_remove pyLower
          [⟨"apple", "2 piece"⟩, ⟨"banana", "2 piece"⟩]
          ⟨"remove_inventory", [⟨"apple", "1 piece"⟩, ⟨"pear", "1 piece"⟩], false⟩).2.1,
          r.error.isSome)
        ∧ (process_remove pyLower
            [⟨"apple", "2 piece"⟩, ⟨"banana", "2 piece"⟩]
            ⟨"remove_inventory", [⟨"apple", "1 piece"⟩, ⟨"pear", "1 piece"⟩], false⟩).1 =
            [⟨"apple", "1 piece"⟩, ⟨"banana", "2 piece"⟩]
        ∧ [⟨"apple", "1 piece"⟩, ⟨"banana", "2 piece"⟩] ≠
            ([⟨"apple", "2 piece"⟩, ⟨"banana", "2 piece"⟩] : List InvItem)) := by
  refine ⟨?_, ?_, ?_⟩
  · intro norm inv items hex
    have herr : (updateFold norm ⟨buildDict norm inv, [], false⟩ items).hasErr = true :=
      (updateFold_err_iff norm items (buildDict norm inv)).mpr hex
    simp [update_inventory, herr]
  · intro norm inv items
    exact updateFold_length norm items (buildDict norm inv)
  · exact ⟨by decide, by decide, by decide⟩

/-- Witness for C2: a two-item `Add` batch whose second item has the
unknown unit `"ltr"` leaves the stored inventory untouched, the first
(successful) item included. -/
theorem c2_commit_witness :
    (update_inventory pyLower [⟨"apple", "2 piece"⟩]
        [⟨"apple", "3 piece"⟩, ⟨"pear", "2 ltr"⟩]).1 = [⟨"apple", "2 piece"⟩] := by
  exact c2_add_remove_commit_asymmetry.1 pyLower _ _ (by decide)

/-- Loop invariant of the recipe-appending loop: starting within the 1400
budget, the appended recipe texts never push the running total past it. -/
theorem recipesShownAux_budget :
    ∀ (texts : List String) (total : Nat), total ≤ 1400 →
      total + (strJoin (recipesShownAux total texts)).length ≤ 1400 := by
  intro texts
  induction texts with
  | nil => intro total h; simpa [recipesShownAux, strJoin] using h
  | cons t ts ih =>
      intro total h
      unfold recipesShownAux
      by_cases hb : total + t.length > 1400
      · simpa [hb, strJoin] using h
      · rw [if_neg hb]
        have hrec := ih (total + t.length) (by omega)
        simp only [strJoin, String.length_append]
        omega

/-- The inventory listing for a one-item inventory, by pure computation:
no truncation of any kind is applied on this path. -/
theorem get_inventory_response_single (norm : String → String) (it : InvItem)
    (lu : String) :
    get_inventory_response norm [it] lu =
      "📋 Your Kitchen Inventory:\n\n"
        ++ (("• " ++ it.name ++ " (" ++ it.amount ++ ")\n") ++ "")
        ++ "\nTotal items shown: " ++ natStr 1 ++ "\n\nLast updated: " ++ lu := rfl

/-- A 1600-character item name makes the untruncated inventory listing
longer than 1500 characters. -/
theorem inventory_response_over_1500 :
    1500 < (get_inventory_response (fun s => s)
        [⟨(⟨List.replicate 1600 'b'⟩ : String), "1 kg"⟩] "x").length := by
  rw [get_inventory_response_single]
  simp only [String.length_append]
  have hbig : ((⟨List.replicate 1600 'b'⟩ : String)).length = 1600 := by
    show (List.replicate 1600 'b').length = 1600
    simp
  rw [hbig]
  decide

/-- C8 as amended (status: corrected).  There is no single system-wide
output ceiling: general-conversation replies are truncated to exactly 1500
characters with the fixed `"..."` marker (and passed through unchanged when
already within 1500); the recipe listing appends recipe texts only while
the running total, header included, stays within its own 1400 budget; and
the inventory listing path applies no truncation at all — a single stored
item suffices to push it past 1500 characters. -/
theorem c8_budgets_amended :
    (∀ s : String, (truncate1500 s).length ≤ 1500
        ∧ (s.length ≤ 1500 → truncate1500 s = s))
    ∧ (∀ recipes : List Recipe,
        (recipeHeader ++
          strJoin (recipesShownAux recipeHeader.length (recipes.map recipeText))).length
          ≤ 1400)
    ∧ (∃ inv : List InvItem, ∃ lu : String,
        1500 < (get_inventory_response (fun s => s) inv lu).length) := by
  refine ⟨?_, ?_, ?_⟩
  · intro s
    constructor
    · unfold truncate1500
      by_cases h : s.length > 1500
      · rw [if_pos h, String.length_append]
        have h1 : ((⟨s.data.take 1497⟩ : String)).length = (s.data.take 1497).length := rfl
        have h2 : (s.data.take 1497).length = min 1497 s.data.length := List.length_take _ _
        have h3 : ("..." : String).length = 3 := rfl
        have h4 : min 1497 s.data.length ≤ 1497 := min_le_left _ _
        omega
      · rw [if_neg h]; omega
    · intro hle
      unfold truncate1500
      rw [if_neg (by omega)]
  · intro recipes
    rw [String.length_append]
    have h := recipesShownAux_budget (recipes.map recipeText) recipeHeader.length (by decide)
    omega
  · exact ⟨[⟨(⟨List.replicate 1600 'b'⟩ : String), "1 kg"⟩], "x",
      inventory_response_over_1500⟩

/-- Witness for C8's amended theorem: a short general reply is passed
through the 1500-character trim unchanged. -/
theorem c8_budgets_witness : truncate1500 "hello" = "hello" := by
  exact (c8_budgets_amended.1 "hello").2 (by decide)

/-- Counterexample for C8: the claimed single shared ceiling does not
exist.  The general-conversation trim is pinned at exactly 1500 characters
(a 1600-character reply is cut to 1500, a 1500-character one kept), yet the
inventory-listing path returns a response strictly longer than 1500
characters untruncated, and the recipe loop's own budget is 1400, not
1500: a recipe text that would land the response between 1400 and 1500 is
dropped rather than appended. -/
theorem c8_no_common_ceiling_counterexample :
    1500 < (get_inventory_response (fun s => s)
        [⟨(⟨List.replicate 1600 'b'⟩ : String), "1 kg"⟩] "x").length
    ∧ (truncate1500 (⟨List.replicate 1600 'b'⟩ : String)).length = 1500
    ∧ truncate1500 (⟨List.replicate 1500 'b'⟩ : String) =
        (⟨List.replicate 1500 'b'⟩ : String)
    ∧ recipesShownAux recipeHeader.length [(⟨List.replicate 1450 'b'⟩ : String)] = [] := by
  have hb1600 : ((⟨List.replicate 1600 'b'⟩ : String)).length = 1600 := by
    show (List.replicate 1600 'b').length = 1600
    simp
  have hb1500 : ((⟨List.replicate 1500 'b'⟩ : String)).length = 1500 := by
    show (List.replicate 1500 'b').length = 1500
    simp
  have hb1450 : ((⟨List.replicate 1450 'b'⟩ : String)).length = 1450 := by
    show (List.replicate 1450 'b').length = 1450
    simp
  refine ⟨inventory_response_over_1500, ?_, ?_, ?_⟩
  · unfold truncate1500
    rw [if_pos (by rw [hb1600]; omega), String.length_append]
    have ht : ((⟨(⟨List.replicate 1600 'b'⟩ : String).data.take 1497⟩ : String)).length
        = 1497 := by
      show ((List.replicate 1600 'b').take 1497).length = 1497
      rw [List.length_take, List.length_replicate]
      decide
    rw [ht]
    decide
  · unfold truncate1500
    rw [if_neg (by rw [hb1500]; omega)]
  · unfold recipesShownAux
    rw [if_pos (by rw [hb1450]; decide)]
